import Mathlib

/-!
Verification of the pptx-extraction core in `src/code.ts`.

The TypeScript source is shallowly embedded below.  JS strings are Lean
`String`s, JS `undefined` is `Option.none`, a thrown JS exception is the
`Except.error` case of `Except JsError`, and the dynamic `xml2js` document
trees are modelled by structures that record exactly the fields the code
dereferences (with `Option` marking every point where the optional chain
`?.` can stop).  Zip archives are association lists from entry name to
content, with JS-object semantics (later assignments overwrite earlier
ones) for lookups.
-/

namespace PptxSpec

/-- JS runtime failures relevant to the embedded code: a `TypeError` from
dereferencing `undefined`, or an XML parse rejection from
`parseStringPromise`. -/
inductive JsError where
  | typeError
  | parseError
deriving DecidableEq

/-- `TextItem` (code.ts lines 9-12).  The TS interface declares
`text : string`, but at runtime the stored value is `textItem['a:t']?.[0]`,
which can be `undefined`; we model it as `Option String`. -/
structure TextItem where
  text : Option String
  isBold : Bool
deriving DecidableEq

/-- `ParagraphItem` (code.ts lines 4-7). -/
structure ParagraphItem where
  text : List TextItem
  isList : Bool
deriving DecidableEq

/-- `SlideData` (code.ts lines 14-19). -/
structure SlideData where
  title : String
  text : List ParagraphItem
  images : List String
  number : Nat
deriving DecidableEq

/-- The `$` attribute object of a `p:ph` element, as produced by xml2js.
`type` is the `type` attribute; it is absent (`none`) for placeholders
such as `<p:ph idx="1"/>`. -/
structure PhAttrs where
  type : Option String
deriving DecidableEq

/-- An `a:r` run element.  `atText` is `textItem['a:t']?.[0]`;
`rPrB` is `textItem['a:rPr']?.[0]?.$?.b`. -/
structure RunElem where
  atText : Option String
  rPrB : Option String
deriving DecidableEq

/-- `paragraph?.['a:pPr']?.[0]`: `buNone` records whether the key
`'a:buNone'` is present (any xml2js value for it is truthy). -/
structure PPrElem where
  buNone : Bool
deriving DecidableEq

/-- An `a:p` paragraph element: `runs` is `paragraph?.['a:r']`,
`pPr` is `paragraph?.['a:pPr']?.[0]`. -/
structure ParaElem where
  runs : Option (List RunElem)
  pPr : Option PPrElem
deriving DecidableEq

/-- `shape?.['p:txBody']` with the `[0]` index collapsed;
`ps` is `textBody[0]?.['a:p']`. -/
structure TxBody where
  ps : Option (List ParaElem)
deriving DecidableEq

/-- A `p:sp` shape.  `phAttrs` is
`shape?.['p:nvSpPr']?.[0]?.['p:nvPr']?.[0]?.['p:ph']?.[0]?.$`
(`none` when any link of that optional chain is absent);
`txBody` is `shape?.['p:txBody']`. -/
structure Shape where
  phAttrs : Option PhAttrs
  txBody : Option TxBody
deriving DecidableEq

/-- One `Relationship` element of a rels part: `relType` is
`relationship.$.Type`, `target` is `relationship.$.Target`. -/
structure Relationship where
  relType : String
  target : String
deriving DecidableEq

/-- A parsed xml2js document, restricted to the two views the code takes:
`shapes` is `doc?.['p:sld']?.['p:cSld']?.[0]?.['p:spTree']?.[0]?.['p:sp']`
and `relationships` is `doc?.['Relationships']?.['Relationship']`. -/
structure XmlDoc where
  shapes : Option (List Shape)
  relationships : Option (List Relationship)
deriving DecidableEq

/-- Content of one zip entry: an XML part that parses to `doc`, an XML
part that `parseStringPromise` rejects, or a binary media part. -/
inductive Content where
  | xml (doc : XmlDoc)
  | malformed
  | media
deriving DecidableEq

/-- A zip archive: association list from entry path to content
(`zip.files`), in insertion order. -/
abbrev Package := List (String × Content)

/-- Character-list primitive: does `p` occur at the start of the list? -/
def hasPrefixL : List Char → List Char → Bool
  | [], _ => true
  | _ :: _, [] => false
  | a :: as, b :: bs => a == b && hasPrefixL as bs

/-- JS `path.startsWith(p)`. -/
def strStartsWith (s p : String) : Bool :=
  hasPrefixL p.data s.data

/-- JS object property lookup: the object is built by sequential
assignments, so a later assignment to the same key overwrites an earlier
one. -/
def jsObjGet {α : Type} : List (String × α) → String → Option α
  | [], _ => none
  | (k, v) :: rest, key =>
    match jsObjGet rest key with
    | some w => some w
    | none => if k = key then some v else none

/-- `Object.keys(zip.files)`. -/
def zipKeys (zip : Package) : List String :=
  zip.map Prod.fst

/-- `zip.file(path)` (null when absent). -/
def zipFile (zip : Package) (path : String) : Option Content :=
  jsObjGet zip path

/-- `parseStringPromise` (xml2js): succeeds on well-formed XML, rejects
otherwise. -/
def parseStringPromise : Content → Except JsError XmlDoc
  | .xml doc => .ok doc
  | _ => .error .parseError

/-- Maximal leading digit run of a character list. -/
def takeDigits : List Char → List Char
  | [] => []
  | c :: cs => if c.isDigit then c :: takeDigits cs else []

/-- The literal `slide` searched for by the regex `/slide(\d+)/`. -/
def slideWord : List Char := ['s', 'l', 'i', 'd', 'e']

/-- Model of `path.match(/slide(\d+)/)?.[1]`: at the first position where
`slide` is followed by at least one digit, capture the maximal digit run;
`none` when no such position exists. -/
def findSlideDigits : List Char → Option (List Char)
  | [] => none
  | c :: cs =>
    if hasPrefixL slideWord (c :: cs) then
      match takeDigits ((c :: cs).drop 5) with
      | [] => findSlideDigits cs
      | d :: ds => some (d :: ds)
    else findSlideDigits cs

/-- Decimal value of a digit run. -/
def digitsToNat (ds : List Char) : Nat :=
  ds.foldl (fun n c => n * 10 + (c.toNat - 48)) 0

/-- `parseInt(path.match(/slide(\d+)/)?.[1] || '0')`
(code.ts lines 66-67): unparsable paths get the sort key `0`. -/
def parseSlideNum (path : String) : Nat :=
  match findSlideDigits path.data with
  | some ds => digitsToNat ds
  | none => 0

/-- Is `sub` a contiguous sublist of the second argument? -/
def listContainsSub (sub : List Char) : List Char → Bool
  | [] => hasPrefixL sub []
  | c :: cs => hasPrefixL sub (c :: cs) || listContainsSub sub cs

/-- JS `s.includes(sub)`. -/
def jsIncludes (s sub : String) : Bool :=
  listContainsSub sub.data s.data

/-- JS `s.replace(pat, '')` with a string pattern: removes the first
occurrence only. -/
def replaceFirst (pat : List Char) : List Char → List Char
  | [] => []
  | c :: cs =>
    if hasPrefixL pat (c :: cs) then (c :: cs).drop pat.length
    else c :: replaceFirst pat cs

/-- `Array.prototype.find` with a callback that can throw: the first
exception raised while scanning propagates. -/
def jsFind {α : Type} (p : α → Except JsError Bool) : List α → Except JsError (Option α)
  | [] => .ok none
  | x :: xs => do
    let b ← p x
    if b then pure (some x) else jsFind p xs

/-- `shape?.['p:nvSpPr']?.[0]?.['p:nvPr']?.[0]?.['p:ph']?.[0]?.$?.type.includes(key)`
(code.ts lines 146-153).  When the optional chain stops before `$` the
whole expression is `undefined` (falsy).  When the `$` object exists but
carries no `type` attribute, the unguarded `.includes` call is a property
access on `undefined` and throws a `TypeError`. -/
def phTypeIncludes (sh : Shape) (key : String) : Except JsError Bool :=
  match sh.phAttrs with
  | none => .ok false
  | some attrs =>
    match attrs.type with
    | none => .error .typeError
    | some t => .ok (jsIncludes t key)

/-- The title-shape callback of `shapes.find` (code.ts lines 146-154):
`...type.includes('title') || ...type.includes('ctrTitle')` with JS
short-circuit evaluation. -/
def isTitleShape (sh : Shape) : Except JsError Bool := do
  let a ← phTypeIncludes sh "title"
  if a then pure true else phTypeIncludes sh "ctrTitle"

/-- `found?.['p:txBody']?.[0]?.['a:p']?.[0]?.['a:r']?.[0]?.['a:t']?.[0] || ''`
(code.ts line 154). -/
def titleOf (found : Option Shape) : String :=
  ((((((found.bind Shape.txBody).bind TxBody.ps).bind List.head?).bind
    ParaElem.runs).bind List.head?).bind RunElem.atText).getD ""

/-- The run loop of `extractTextData` (code.ts lines 163-171): a run is
pushed unless its `a:t` text is (strictly) equal to the title string. -/
def extractRuns (title : String) : List RunElem → List TextItem
  | [] => []
  | r :: rs =>
    if r.atText ≠ some title then
      { text := r.atText, isBold := r.rPrB == some "1" } :: extractRuns title rs
    else
      extractRuns title rs

/-- The per-shape paragraph loop of `extractTextData`
(code.ts lines 155-182): paragraphs with an empty collected run array are
skipped; `isList` is `!paragraphProps || !paragraphProps['a:buNone']`. -/
def paragraphItemsOfShape (title : String) (sh : Shape) : List ParagraphItem :=
  match sh.txBody with
  | none => []
  | some tb =>
    match tb.ps with
    | none => []
    | some paras =>
      paras.filterMap fun para =>
        let textArray := extractRuns title (para.runs.getD [])
        if textArray.isEmpty then none
        else
          some { text := textArray,
                 isList :=
                   match para.pPr with
                   | none => true
                   | some props => !props.buNone }

/-- `extractTextData` (code.ts lines 136-185). -/
def extractTextData (doc : XmlDoc) : Except JsError (String × List ParagraphItem) := do
  let shapes := doc.shapes.getD []
  let found ← jsFind isTitleShape shapes
  let title := titleOf found
  pure (title, (shapes.map (paragraphItemsOfShape title)).flatten)

/-- The OOXML image relationship type URI (code.ts line 193). -/
def imageRelTypeURI : String :=
  "http://schemas.openxmlformats.org/officeDocument/2006/relationships/image"

/-- `extractImagePaths` (code.ts lines 187-204): keeps every relationship
whose `Type` is the image URI, rewriting the target by removing the first
`../` and prefixing `ppt/`.  No extension check happens here.  The inner
`if (imagePath)` is JS truthiness on a string that always starts with
`ppt/`, hence always taken. -/
def extractImagePaths (doc : XmlDoc) : List String :=
  (doc.relationships.getD []).filterMap fun rel =>
    if rel.relType = imageRelTypeURI then
      let imagePath := "ppt/" ++ String.mk (replaceFirst ("../".data) rel.target.data)
      if imagePath ≠ "" then some imagePath else none
    else none

/-- `t.text[0].toUpperCase() + t.text.slice(1)` (code.ts line 209).
When `t.text` is `undefined`, `undefined[0]` throws; when `t.text` is the
empty string, `''[0]` is `undefined` and `.toUpperCase()` on it throws. -/
def jsCapitalizeFirst : Option String → Except JsError String
  | none => .error .typeError
  | some s =>
    match s.data with
    | [] => .error .typeError
    | c :: cs => .ok (String.mk (Char.toUpper c :: cs))

/-- `p.text.map((t, index) => ...)` (code.ts lines 208-211): only the run
at index 0 is capitalized; a throw from the callback propagates out of
`map`. -/
def formatRuns : Nat → List TextItem → Except JsError (List TextItem)
  | _, [] => .ok []
  | index, t :: ts => do
    let first ←
      if index == 0 then do
        let s ← jsCapitalizeFirst t.text
        pure (some s)
      else pure t.text
    let rest ← formatRuns (index + 1) ts
    pure ({ text := first, isBold := t.isBold } :: rest)

/-- `formatParagraphItems` (code.ts lines 206-214): a plain `map` over the
paragraphs — it merges nothing; each paragraph keeps its `isList` and its
run list, with the first run capitalized. -/
def formatParagraphItems : List ParagraphItem → Except JsError (List ParagraphItem)
  | [] => .ok []
  | p :: ps => do
    let ts ← formatRuns 0 p.text
    let rest ← formatParagraphItems ps
    pure ({ text := ts, isList := p.isList } :: rest)

/-- `getSlidePaths` (code.ts lines 79-83): every entry whose path starts
with `ppt/slides/slide`, in enumeration order, with no ordinal-parse
filtering. -/
def getSlidePaths (zip : Package) : List String :=
  (zipKeys zip).filter fun path => strStartsWith path "ppt/slides/slide"

/-- `getSlideToRelsMap` (code.ts lines 85-98), as the association list the
JS object is built from.  The guard `if (slideNumber)` tests JS truthiness
of the captured digit string, which is always nonempty, so every
successful match inserts an entry. -/
def getSlideToRelsMap (zip : Package) : List (String × String) :=
  ((zipKeys zip).filter fun path => strStartsWith path "ppt/slides/_rels/slide").filterMap
    fun relsPath =>
      match findSlideDigits relsPath.data with
      | some ds => some ("ppt/slides/slide" ++ String.mk ds ++ ".xml", relsPath)
      | none => none

/-- Stable insertion used to model `slidePaths.sort((a, b) => numA - numB)`
(code.ts lines 65-69).  `Array.prototype.sort` is a stable sort consistent
with the comparator, and the stable ordering for a total preorder of keys
is unique, so insertion sort computes exactly the JS result. -/
def insertByNum (x : String) : List String → List String
  | [] => [x]
  | y :: ys =>
    if parseSlideNum y < parseSlideNum x then y :: insertByNum x ys
    else x :: y :: ys

/-- See `insertByNum`. -/
def sortByNum : List String → List String
  | [] => []
  | x :: xs => insertByNum x (sortByNum xs)

/-- The sorted slide-path list of `parseSlides` (code.ts lines 65-69). -/
def sortedSlidePaths (zip : Package) : List String :=
  sortByNum (getSlidePaths zip)

/-- `processSlide` (code.ts lines 100-134): missing slide or rels file →
warn and return null; any exception inside the `try` (parse failure,
TypeError from extraction or formatting) → log and return null. -/
def processSlide (zip : Package) (path : String) (relsPath : Option String) :
    Option SlideData :=
  let slideFile := zipFile zip path
  let relsFile := relsPath.bind (zipFile zip)
  match slideFile, relsFile with
  | some sf, some rf =>
    (do
      let slideData ← parseStringPromise sf
      let relsData ← parseStringPromise rf
      let td ← extractTextData slideData
      let images := extractImagePaths relsData
      let text ← formatParagraphItems td.2
      pure { title := td.1, text := text, images := images, number := 0 }
      : Except JsError SlideData).toOption
  | _, _ => none

/-- `parseSlides` (code.ts lines 62-77): process each sorted slide path,
keeping non-null results. -/
def parseSlides (zip : Package) : List SlideData :=
  (sortedSlidePaths zip).filterMap fun path =>
    processSlide zip path (jsObjGet (getSlideToRelsMap zip) path)

/-- The numbering mutation of `renderSlidesToFrames` (code.ts lines
235-236): `slide.number = index + 1` over `slides.entries()`. -/
def assignSlideNumbers (slides : List SlideData) : List SlideData :=
  slides.enum.map fun idxSlide => { idxSlide.2 with number := idxSlide.1 + 1 }

/-- `imagePath.split('.').pop() || ''` (code.ts line 426): the last
segment after splitting on `.`, which is the character run after the last
dot, or the whole string when it has no dot (and `''` both when the last
segment is empty and when `pop()` could give `undefined`). -/
def jsExtension (path : String) : String :=
  String.mk (path.data.foldl (fun acc c => if c == '.' then [] else acc ++ [c]) [])

/-- The image paths for which `createImageFrames` (code.ts lines 406-457)
actually creates an image node: the zip entry must exist and the extension
must be png/jpeg/jpg; every other path is logged and skipped without
throwing. -/
def createdImagePaths (zip : Package) (images : List String) : List String :=
  images.filter fun imagePath =>
    (zipFile zip imagePath).isSome &&
      ["png", "jpeg", "jpg"].contains (jsExtension imagePath)

/-- A renderer-facing block in the sense of spec section 4.5. -/
structure Block where
  text : String
  isList : Bool
deriving DecidableEq

/-- Modelled from the spec: `mergeAdjacent` (spec section 4.5) is absent
from the source — `formatParagraphItems` performs no merging — so the
operation is modelled from the spec's words: scanning left to right,
consecutive paragraphs sharing the same `isList` value are combined into
one block whose text is the newline-joined concatenation of their texts;
a change in `isList` starts a new block. -/
def mergeAdjacent : List Block → List Block
  | [] => []
  | b :: bs =>
    match mergeAdjacent bs with
    | [] => [b]
    | c :: cs =>
      if b.isList = c.isList then
        { text := b.text ++ "\n" ++ c.text, isList := b.isList } :: cs
      else
        b :: c :: cs

/-- Reference definition following the spec's words (section 4.5,
`capitalizeLead`): uppercase the first character of the first run's text,
leave everything else unchanged, and leave the paragraph unchanged when
there is no first run or its text is absent or empty.  Stated for
comparison against the implemented `formatParagraphItems`. -/
def capitalizeLead (p : ParagraphItem) : ParagraphItem :=
  match p.text with
  | [] => p
  | t :: ts =>
    match t.text with
    | none => p
    | some s =>
      match s.data with
      | [] => p
      | c :: cs =>
        { p with text := { t with text := some (String.mk (Char.toUpper c :: cs)) } :: ts }

/-! ### Concrete fixtures used by counterexamples and witnesses -/

/-- A minimal slide document: one shape with no placeholder and a single
run "hello". -/
def docHello : XmlDoc where
  shapes := some [ { phAttrs := none,
                     txBody := some { ps := some [ { runs := some [ { atText := some "hello", rPrB := none } ], pPr := none } ] } } ]
  relationships := none

/-- A rels document declaring no relationships. -/
def relsEmptyDoc : XmlDoc where
  shapes := none
  relationships := some []

/-- A package whose only slide part is `slide7.xml`. -/
def zipSlide7 : Package :=
  [("ppt/slides/slide7.xml", .xml docHello),
   ("ppt/slides/_rels/slide7.xml.rels", .xml relsEmptyDoc)]

/-- A package mixing slide parts `slide10`, `slideABC` (unparsable
ordinal) and `slide2`. -/
def zipMixed : Package :=
  [("ppt/slides/slide10.xml", .xml docHello),
   ("ppt/slides/slideABC.xml", .xml docHello),
   ("ppt/slides/slide2.xml", .xml docHello)]

/-- Two consecutive non-list paragraphs "first" and "second" (spec
section 8's end-to-end example input for slide 2). -/
def parasFirstSecond : List ParagraphItem :=
  [ { text := [ { text := some "first", isBold := false } ], isList := false },
    { text := [ { text := some "second", isBold := false } ], isList := false } ]

/-- What `formatParagraphItems` actually produces on
`parasFirstSecond`. -/
def parasFirstSecondOut : List ParagraphItem :=
  [ { text := [ { text := some "First", isBold := false } ], isList := false },
    { text := [ { text := some "Second", isBold := false } ], isList := false } ]

/-- A single bulleted paragraph "hello". -/
def parasHello : List ParagraphItem :=
  [ { text := [ { text := some "hello", isBold := false } ], isList := true } ]

/-- `parasHello` after formatting. -/
def parasHelloOut : List ParagraphItem :=
  [ { text := [ { text := some "Hello", isBold := false } ], isList := true } ]

/-- A paragraph whose first run has empty text. -/
def paraEmptyFirstRun : List ParagraphItem :=
  [ { text := [ { text := some "", isBold := false } ], isList := true } ]

/-- A rels document with a single image relationship whose target is a
gif. -/
def relsGifDoc : XmlDoc where
  shapes := none
  relationships := some [ { relType := imageRelTypeURI, target := "../media/image1.gif" } ]

/-- A package with one slide, an image relationship to a gif, and the gif
binary itself. -/
def zipGif : Package :=
  [("ppt/slides/slide1.xml", .xml docHello),
   ("ppt/slides/_rels/slide1.xml.rels", .xml relsGifDoc),
   ("ppt/media/image1.gif", .media)]

/-- A slide whose only shape carries `<p:ph idx=".."/>`-style placeholder
attributes without a `type` attribute. -/
def docPhNoType : XmlDoc where
  shapes := some [ { phAttrs := some { type := none },
                     txBody := some { ps := some [ { runs := some [ { atText := some "hello", rPrB := none } ], pPr := none } ] } } ]
  relationships := none

/-- A package containing `docPhNoType` as its only slide, rels present. -/
def zipPhNoType : Package :=
  [("ppt/slides/slide1.xml", .xml docPhNoType),
   ("ppt/slides/_rels/slide1.xml.rels", .xml relsEmptyDoc)]

/-- A slide with a title placeholder shape (title "T") and a body shape
holding one paragraph made of a whitespace run and an empty run. -/
def docTitleAndBlank : XmlDoc where
  shapes := some
    [ { phAttrs := some { type := some "title" },
        txBody := some { ps := some [ { runs := some [ { atText := some "T", rPrB := none } ], pPr := none } ] } },
      { phAttrs := none,
        txBody := some { ps := some [ { runs := some [ { atText := some " ", rPrB := none }, { atText := some "", rPrB := none } ], pPr := none } ] } } ]
  relationships := none

/-- The whitespace-only paragraph `docTitleAndBlank` actually yields. -/
def paraBlankOut : ParagraphItem :=
  { text := [ { text := some " ", isBold := false }, { text := some "", isBold := false } ],
    isList := true }

/-- A package whose only slide part has no companion rels part. -/
def zipNoRels : Package :=
  [("ppt/slides/slide1.xml", .xml docHello)]

/-- A package holding only a png media entry. -/
def zipPng : Package :=
  [("ppt/media/image9.png", .media)]

/-- A package whose first slide part is malformed XML and whose second is
valid. -/
def zipOneBad : Package :=
  [("ppt/slides/slide1.xml", .malformed),
   ("ppt/slides/_rels/slide1.xml.rels", .xml relsEmptyDoc),
   ("ppt/slides/slide2.xml", .xml docHello),
   ("ppt/slides/_rels/slide2.xml.rels", .xml relsEmptyDoc)]

/-! ### Helper lemmas -/

instance {ε α : Type} [DecidableEq ε] [DecidableEq α] : DecidableEq (Except ε α) := fun a b =>
  match a, b with
  | .error e, .error f => decidable_of_iff (e = f) (by simp)
  | .ok x, .ok y => decidable_of_iff (x = y) (by simp)
  | .error _, .ok _ => isFalse (by simp)
  | .ok _, .error _ => isFalse (by simp)

theorem char_toNat_ofNat_of_upper {n : Nat} (h1 : 65 ≤ n) (h2 : n ≤ 90) :
    (Char.ofNat n).toNat = n := by
  interval_cases n <;> decide

theorem char_toUpper_idem (c : Char) : c.toUpper.toUpper = c.toUpper := by
  have hdef : ∀ d : Char, d.toUpper =
      if 97 ≤ d.toNat ∧ d.toNat ≤ 122 then Char.ofNat (d.toNat - 32) else d :=
    fun d => rfl
  by_cases h : 97 ≤ c.toNat ∧ c.toNat ≤ 122
  · rw [hdef c, if_pos h, hdef, char_toNat_ofNat_of_upper (by omega) (by omega),
      if_neg (by omega)]
  · rw [hdef c, if_neg h, hdef c, if_neg h]

theorem formatRuns_pos (n : Nat) (ts : List TextItem) : formatRuns (n + 1) ts = .ok ts := by
  induction ts generalizing n with
  | nil => rfl
  | cons t ts ih => simp [formatRuns, ih]

@[simp] theorem except_bind_ok {α β : Type} (a : α) (f : α → Except JsError β) :
    (Except.ok a >>= f) = f a := rfl

@[simp] theorem except_bind_error {α β : Type} (e : JsError) (f : α → Except JsError β) :
    ((Except.error e : Except JsError α) >>= f) = Except.error e := rfl

theorem formatRuns_zero_ok (xs us : List TextItem) (h : formatRuns 0 xs = .ok us) :
    (xs = [] ∧ us = []) ∨
      ∃ t rest c cs, xs = t :: rest ∧ t.text = some ⟨c :: cs⟩ ∧
        us = { text := some ⟨Char.toUpper c :: cs⟩, isBold := t.isBold } :: rest := by
  cases xs with
  | nil => exact Or.inl ⟨rfl, by simpa [formatRuns] using h.symm⟩
  | cons t rest =>
    right
    cases ht : t.text with
    | none => simp [formatRuns, ht, jsCapitalizeFirst] at h
    | some s =>
      obtain ⟨sd⟩ := s
      cases hs : sd with
      | nil =>
        subst hs
        simp [formatRuns, ht, jsCapitalizeFirst] at h
      | cons c cs =>
        subst hs
        refine ⟨t, rest, c, cs, rfl, ht, ?_⟩
        simp [formatRuns, ht, jsCapitalizeFirst, formatRuns_pos 0 rest] at h
        exact h.symm

theorem formatParagraphItems_ok_eq (ps qs : List ParagraphItem)
    (h : formatParagraphItems ps = .ok qs) : qs = ps.map capitalizeLead := by
  induction ps generalizing qs with
  | nil => simpa [formatParagraphItems] using h.symm
  | cons p ps ih =>
    cases hfr : formatRuns 0 p.text with
    | error e => simp [formatParagraphItems, hfr] at h
    | ok ts =>
      cases hrest : formatParagraphItems ps with
      | error e => simp [formatParagraphItems, hfr, hrest] at h
      | ok rest =>
        simp [formatParagraphItems, hfr, hrest] at h
        have hcap : ({ text := ts, isList := p.isList } : ParagraphItem) = capitalizeLead p := by
          rcases formatRuns_zero_ok _ _ hfr with ⟨hxs, hus⟩ | ⟨t, r, c, cs, hxs, htt, hus⟩
          · obtain ⟨ptext, plist⟩ := p
            simp only at hxs
            subst hxs hus
            rfl
          · obtain ⟨ptext, plist⟩ := p
            simp only at hxs
            subst hxs hus
            simp [capitalizeLead, htt]
        rw [← h, List.map_cons, ← ih rest hrest, hcap]

theorem formatRuns_zero_idem (xs us : List TextItem) (h : formatRuns 0 xs = .ok us) :
    formatRuns 0 us = .ok us := by
  rcases formatRuns_zero_ok _ _ h with ⟨_, hus⟩ | ⟨t, r, c, cs, hxs, htt, hus⟩
  · subst hus; rfl
  · subst hus
    simp [formatRuns, jsCapitalizeFirst, formatRuns_pos 0 r, char_toUpper_idem]

theorem formatParagraphItems_idem (ps qs : List ParagraphItem)
    (h : formatParagraphItems ps = .ok qs) : formatParagraphItems qs = .ok qs := by
  induction ps generalizing qs with
  | nil =>
    simp [formatParagraphItems] at h
    subst h
    rfl
  | cons p ps ih =>
    cases hfr : formatRuns 0 p.text with
    | error e => simp [formatParagraphItems, hfr] at h
    | ok ts =>
      cases hrest : formatParagraphItems ps with
      | error e => simp [formatParagraphItems, hfr, hrest] at h
      | ok rest =>
        simp [formatParagraphItems, hfr, hrest] at h
        rw [← h]
        simp [formatParagraphItems, formatRuns_zero_idem _ _ hfr, ih rest hrest]

theorem mergeAdjacent_cons (b : Block) (bs : List Block) :
    mergeAdjacent (b :: bs) =
      match mergeAdjacent bs with
      | [] => [b]
      | c :: cs =>
        if b.isList = c.isList then
          { text := b.text ++ "\n" ++ c.text, isList := b.isList } :: cs
        else
          b :: c :: cs := rfl

theorem mergeAdjacent_chain (l : List Block) :
    List.Chain' (fun a b => a.isList ≠ b.isList) (mergeAdjacent l) := by
  induction l with
  | nil => simp [mergeAdjacent]
  | cons b bs ih =>
    rw [mergeAdjacent_cons]
    cases hm : mergeAdjacent bs with
    | nil => simp
    | cons c cs =>
      rw [hm] at ih
      dsimp only
      by_cases hbc : b.isList = c.isList
      · rw [if_pos hbc]
        cases cs with
        | nil => simp
        | cons d ds =>
          have h1 : c.isList ≠ d.isList := (List.chain'_cons.mp ih).1
          exact List.chain'_cons.mpr ⟨by simpa [hbc] using h1, (List.chain'_cons.mp ih).2⟩
      · rw [if_neg hbc]
        exact List.chain'_cons.mpr ⟨hbc, ih⟩

theorem mergeAdjacent_of_chain (l : List Block)
    (h : List.Chain' (fun a b => a.isList ≠ b.isList) l) : mergeAdjacent l = l := by
  induction l with
  | nil => rfl
  | cons b bs ih =>
    cases bs with
    | nil => rfl
    | cons c cs =>
      have h1 : b.isList ≠ c.isList := (List.chain'_cons.mp h).1
      have h2 := (List.chain'_cons.mp h).2
      rw [mergeAdjacent_cons, ih h2]
      dsimp only
      rw [if_neg h1]


theorem mem_insertByNum {x a : String} {l : List String} (h : a ∈ insertByNum x l) :
    a = x ∨ a ∈ l := by
  induction l with
  | nil => simpa [insertByNum] using h
  | cons y ys ih =>
    rw [insertByNum] at h
    split at h
    · rcases List.mem_cons.mp h with h1 | h2
      · exact Or.inr (List.mem_cons.mpr (Or.inl h1))
      · rcases ih h2 with h3 | h4
        · exact Or.inl h3
        · exact Or.inr (List.mem_cons.mpr (Or.inr h4))
    · rcases List.mem_cons.mp h with h1 | h2
      · exact Or.inl h1
      · exact Or.inr h2

theorem pairwise_insertByNum {x : String} {l : List String}
    (h : l.Pairwise fun a b => parseSlideNum a ≤ parseSlideNum b) :
    (insertByNum x l).Pairwise fun a b => parseSlideNum a ≤ parseSlideNum b := by
  induction l with
  | nil => simp [insertByNum]
  | cons y ys ih =>
    rw [List.pairwise_cons] at h
    rw [insertByNum]
    split
    · refine List.pairwise_cons.mpr ⟨?_, ih h.2⟩
      intro z hz
      rcases mem_insertByNum hz with h1 | h2
      · subst h1; omega
      · exact h.1 z h2
    · refine List.pairwise_cons.mpr ⟨?_, List.pairwise_cons.mpr h⟩
      intro z hz
      rcases List.mem_cons.mp hz with h1 | h2
      · subst h1; omega
      · have := h.1 z h2; omega

theorem pairwise_sortByNum (l : List String) :
    (sortByNum l).Pairwise fun a b => parseSlideNum a ≤ parseSlideNum b := by
  induction l with
  | nil => simp [sortByNum]
  | cons x xs ih => exact pairwise_insertByNum ih

theorem jsObjGet_cons {α : Type} (k1 : String) (v1 : α) (rest : List (String × α))
    (key : String) :
    jsObjGet ((k1, v1) :: rest) key =
      match jsObjGet rest key with
      | some w => some w
      | none => if k1 = key then some v1 else none := rfl

theorem jsObjGet_some_mem {α : Type} {m : List (String × α)} {k : String} {v : α}
    (h : jsObjGet m k = some v) : (k, v) ∈ m := by
  induction m with
  | nil => simp [jsObjGet] at h
  | cons kv rest ih =>
    obtain ⟨k1, v1⟩ := kv
    rw [jsObjGet_cons] at h
    cases hr : jsObjGet rest k with
    | some w =>
      rw [hr] at h
      dsimp only at h
      cases h
      exact List.mem_cons.mpr (Or.inr (ih hr))
    | none =>
      rw [hr] at h
      dsimp only at h
      split at h
      · cases h
        rename_i hk
        subst hk
        exact List.mem_cons.mpr (Or.inl rfl)
      · cases h

theorem jsObjGet_none {α : Type} {m : List (String × α)} {k : String}
    (h : ∀ kv ∈ m, kv.1 ≠ k) : jsObjGet m k = none := by
  induction m with
  | nil => rfl
  | cons kv rest ih =>
    obtain ⟨k1, v1⟩ := kv
    rw [jsObjGet_cons, ih fun e he => h e (List.mem_cons.mpr (Or.inr he))]
    dsimp only
    rw [if_neg (h (k1, v1) (List.mem_cons.mpr (Or.inl rfl)))]

theorem processSlide_relsNone (zip : Package) (path : String) (relsPath : Option String)
    (h : relsPath.bind (zipFile zip) = none) : processSlide zip path relsPath = none := by
  unfold processSlide
  rw [h]
  cases zipFile zip path <;> rfl

theorem takeDigits_mem {l : List Char} {c : Char} (h : c ∈ takeDigits l) : c.isDigit = true := by
  induction l with
  | nil => simp [takeDigits] at h
  | cons d ds ih =>
    rw [takeDigits] at h
    split at h
    · rcases List.mem_cons.mp h with h1 | h2
      · subst h1; assumption
      · exact ih h2
    · simp at h

theorem takeDigits_append_nondigit {ds : List Char} (hds : ∀ c ∈ ds, c.isDigit = true)
    {e : Char} (he : e.isDigit = false) (l : List Char) :
    takeDigits (ds ++ e :: l) = ds := by
  induction ds with
  | nil => simp [takeDigits, he]
  | cons d dt ih =>
    have hd : d.isDigit = true := hds d (List.mem_cons.mpr (Or.inl rfl))
    rw [List.cons_append, takeDigits, if_pos hd,
      ih fun c hc => hds c (List.mem_cons.mpr (Or.inr hc))]

theorem findSlideDigits_some {l ds : List Char} (h : findSlideDigits l = some ds) :
    ds ≠ [] ∧ ∀ c ∈ ds, c.isDigit = true := by
  induction l with
  | nil => simp [findSlideDigits] at h
  | cons c cs ih =>
    rw [findSlideDigits] at h
    split at h
    · split at h
      · exact ih h
      · rename_i d dt heq
        cases h
        refine ⟨by simp, fun e he => ?_⟩
        rw [← heq] at he
        exact takeDigits_mem he
    · exact ih h

theorem findSlideDigits_step_nomatch {c : Char} {cs : List Char}
    (h : hasPrefixL slideWord (c :: cs) = false) :
    findSlideDigits (c :: cs) = findSlideDigits cs := by
  rw [findSlideDigits, if_neg (by simp [h])]

theorem findSlideDigits_step_nodigit {c : Char} {cs : List Char}
    (h : hasPrefixL slideWord (c :: cs) = true)
    (h2 : takeDigits ((c :: cs).drop 5) = []) :
    findSlideDigits (c :: cs) = findSlideDigits cs := by
  rw [findSlideDigits, if_pos (by simp [h]), h2]

theorem findSlideDigits_step_digits {c d : Char} {cs dt : List Char}
    (h : hasPrefixL slideWord (c :: cs) = true)
    (h2 : takeDigits ((c :: cs).drop 5) = d :: dt) :
    findSlideDigits (c :: cs) = some (d :: dt) := by
  rw [findSlideDigits, if_pos (by simp [h]), h2]

theorem findSlideDigits_slideKey (ds : List Char) (hne : ds ≠ [])
    (hds : ∀ c ∈ ds, c.isDigit = true) :
    findSlideDigits (("ppt/slides/slide".data) ++ ds ++ (".xml".data)) = some ds := by
  cases ds with
  | nil => exact absurd rfl hne
  | cons d dt =>
    have hd : d.isDigit = true := hds d (List.mem_cons.mpr (Or.inl rfl))
    have hdt : ∀ c ∈ dt, c.isDigit = true := fun c hc => hds c (List.mem_cons.mpr (Or.inr hc))
    have htail : takeDigits (dt ++ '.' :: "xml".data) = dt :=
      takeDigits_append_nondigit hdt (by decide) _
    have hlit : ("ppt/slides/slide".data) =
        ['p', 'p', 't', '/', 's', 'l', 'i', 'd', 'e', 's', '/', 's', 'l', 'i', 'd', 'e'] := rfl
    have hxml : (".xml".data) = '.' :: "xml".data := rfl
    rw [hlit, hxml]
    simp only [List.cons_append, List.nil_append]
    rw [findSlideDigits_step_nomatch (by rfl)]
    rw [findSlideDigits_step_nomatch (by rfl)]
    rw [findSlideDigits_step_nomatch (by rfl)]
    rw [findSlideDigits_step_nomatch (by rfl)]
    rw [findSlideDigits_step_nodigit (by rfl) (by rfl)]
    rw [findSlideDigits_step_nomatch (by rfl)]
    rw [findSlideDigits_step_nomatch (by rfl)]
    rw [findSlideDigits_step_nomatch (by rfl)]
    rw [findSlideDigits_step_nomatch (by rfl)]
    rw [findSlideDigits_step_nomatch (by rfl)]
    rw [findSlideDigits_step_nomatch (by rfl)]
    exact findSlideDigits_step_digits (by rfl)
      (by show takeDigits (d :: (dt ++ '.' :: "xml".data)) = d :: dt
          rw [takeDigits, if_pos hd, htail])

theorem getSlideToRelsMap_key {zip : Package} {k r : String}
    (h : (k, r) ∈ getSlideToRelsMap zip) :
    ∃ ds, ds ≠ [] ∧ (∀ c ∈ ds, c.isDigit = true) ∧
      k = "ppt/slides/slide" ++ String.mk ds ++ ".xml" := by
  unfold getSlideToRelsMap at h
  rw [List.mem_filterMap] at h
  obtain ⟨relsPath, hmem, heq⟩ := h
  cases hfd : findSlideDigits relsPath.data with
  | none => rw [hfd] at heq; cases heq
  | some ds =>
    rw [hfd] at heq
    dsimp only at heq
    cases heq
    obtain ⟨hne, hdig⟩ := findSlideDigits_some hfd
    exact ⟨ds, hne, hdig, rfl⟩

theorem relsLookup_none_of_unparsable {zip : Package} {p : String}
    (h : findSlideDigits p.data = none) :
    jsObjGet (getSlideToRelsMap zip) p = none := by
  apply jsObjGet_none
  rintro ⟨k, r⟩ hkv hk
  obtain ⟨ds, hne, hdig, hkey⟩ := getSlideToRelsMap_key hkv
  dsimp only at hk
  subst hk
  rw [hkey] at h
  simp only [String.data_append, List.append_assoc] at h
  have hsk := findSlideDigits_slideKey ((String.mk ds).data) hne hdig
  simp only [List.append_assoc] at hsk
  rw [hsk] at h
  cases h

theorem assignSlideNumbers_enumFrom (l : List SlideData) (n : Nat) :
    ((List.enumFrom n l).map fun is =>
        ({ is.2 with number := is.1 + 1 } : SlideData)).map SlideData.number
      = List.range' (n + 1) l.length := by
  induction l generalizing n with
  | nil => rfl
  | cons s ss ih => simp [List.enumFrom_cons, List.range'_succ, ih]

/-! ### Claims -/

theorem capitalizeLead_isList (p : ParagraphItem) : (capitalizeLead p).isList = p.isList := by
  unfold capitalizeLead
  repeat' split
  all_goals rfl

/-- C3, counterexample: the normalizer does not merge. On two consecutive
non-list paragraphs "first" and "second", `formatParagraphItems` returns
two separate blocks with only the lead characters capitalized — not the
single merged block "First\nSecond" that the claim describes. -/
theorem c3_counterexample_no_merge :
    formatParagraphItems parasFirstSecond = .ok parasFirstSecondOut ∧
    formatParagraphItems parasFirstSecond ≠
      .ok [ { text := [ { text := some "First\nSecond", isBold := false } ], isList := false } ] := by
  exact ⟨rfl, by decide⟩

/-- C3, amended: the implemented normalizer (`formatParagraphItems`)
performs no merging at all — every successful run preserves the number
of paragraphs and each paragraph's `isList` flag, so consecutive
paragraphs sharing an `isList` value remain separate blocks. -/
theorem c3_format_preserves_structure (ps qs : List ParagraphItem)
    (h : formatParagraphItems ps = .ok qs) :
    qs.length = ps.length ∧ qs.map ParagraphItem.isList = ps.map ParagraphItem.isList := by
  have hq := formatParagraphItems_ok_eq ps qs h
  subst hq
  refine ⟨by simp, ?_⟩
  simp [List.map_map, Function.comp_def, capitalizeLead_isList]

/-- C3, witness for `c3_format_preserves_structure` at a concrete input. -/
theorem c3_witness :
    parasFirstSecondOut.length = parasFirstSecond.length ∧
    parasFirstSecondOut.map ParagraphItem.isList = parasFirstSecond.map ParagraphItem.isList :=
  c3_format_preserves_structure parasFirstSecond parasFirstSecondOut rfl

/-- C4: the spec-modelled `mergeAdjacent` is idempotent — merging the
output of a merge changes nothing, because the output of a merge never
contains two adjacent blocks with the same `isList` value. -/
theorem c4_mergeAdjacent_idem (P : List Block) :
    mergeAdjacent (mergeAdjacent P) = mergeAdjacent P :=
  mergeAdjacent_of_chain _ (mergeAdjacent_chain P)

/-- C5, counterexample: a paragraph whose first run has empty text is NOT
left unchanged — `t.text[0].toUpperCase()` throws a `TypeError` on it and
the whole `formatParagraphItems` call fails (caught upstream in
`processSlide`, which then drops the slide). -/
theorem c5_counterexample_empty_run_throws :
    formatParagraphItems paraEmptyFirstRun = .error .typeError ∧
    formatParagraphItems paraEmptyFirstRun ≠ .ok paraEmptyFirstRun := by
  exact ⟨rfl, by decide⟩

/-- C5, amended: on every input on which `formatParagraphItems` succeeds
(i.e. every first run's text is present and nonempty), it uppercases
exactly the first character of each paragraph's first run, leaving all
other characters, runs and `isBold`/`isList` attributes unchanged (the
output equals the paragraph-wise reference function `capitalizeLead`),
and applying it twice yields the same result as applying it once. -/
theorem c5_capitalize_lead_behaviour (ps qs : List ParagraphItem)
    (h : formatParagraphItems ps = .ok qs) :
    qs = ps.map capitalizeLead ∧ formatParagraphItems qs = .ok qs :=
  ⟨formatParagraphItems_ok_eq ps qs h, formatParagraphItems_idem ps qs h⟩

/-- C5, witness for `c5_capitalize_lead_behaviour` at a concrete input. -/
theorem c5_witness :
    parasHelloOut = parasHello.map capitalizeLead ∧
    formatParagraphItems parasHelloOut = .ok parasHelloOut :=
  c5_capitalize_lead_behaviour parasHello parasHelloOut rfl

theorem processSlide_eq (zip : Package) (path : String) (relsPath : Option String) :
    processSlide zip path relsPath =
      match zipFile zip path, relsPath.bind (zipFile zip) with
      | some sf, some rf =>
        (do
          let slideData ← parseStringPromise sf
          let relsData ← parseStringPromise rf
          let td ← extractTextData slideData
          let images := extractImagePaths relsData
          let text ← formatParagraphItems td.2
          pure { title := td.1, text := text, images := images, number := 0 }
          : Except JsError SlideData).toOption
      | _, _ => none := rfl

/-- C1, counterexample: in a package whose only slide part is
`ppt/slides/slide7.xml`, the emitted slide is numbered 1, not 7 — the
source ordinal (7) is not preserved. -/
theorem c1_counterexample_renumbered :
    (assignSlideNumbers (parseSlides zipSlide7)).map SlideData.number = [1] ∧
    parseSlideNum "ppt/slides/slide7.xml" = 7 ∧
    (assignSlideNumbers (parseSlides zipSlide7)).map SlideData.number ≠ [7] :=
  ⟨rfl, rfl, by decide⟩

/-- C1, amended: output slide numbers are reassigned sequentially —
`renderSlidesToFrames` sets `slide.number = index + 1`, so the emitted
numbers are exactly 1..M (hence strictly increasing), compacted over the
surviving slides rather than taken from the source part paths. -/
theorem c1_numbers_compacted_increasing (slides : List SlideData) :
    (assignSlideNumbers slides).map SlideData.number = List.range' 1 slides.length ∧
    ((assignSlideNumbers slides).map SlideData.number).Pairwise (· < ·) := by
  have h2 : (assignSlideNumbers slides).map SlideData.number = List.range' 1 slides.length :=
    assignSlideNumbers_enumFrom slides 0
  exact ⟨h2, by rw [h2]; exact List.pairwise_lt_range' 1 slides.length⟩

/-- C2, counterexample: a package whose only slide part has no matching
rels part yields NO slide at all — the slide is dropped, it is not
emitted with an empty image list. -/
theorem c2_counterexample_missing_rels :
    getSlidePaths zipNoRels = ["ppt/slides/slide1.xml"] ∧ parseSlides zipNoRels = [] :=
  ⟨rfl, rfl⟩

/-- C2, amended: when a slide part's rels lookup fails (no rels path is
mapped, or the mapped entry is absent from the archive), `processSlide`
warns and returns null, so the slide is dropped rather than extracted
with empty images. -/
theorem c2_missing_rels_drops_slide (zip : Package) (path : String) (relsPath : Option String)
    (h : relsPath.bind (zipFile zip) = none) : processSlide zip path relsPath = none :=
  processSlide_relsNone zip path relsPath h

/-- C2, witness for `c2_missing_rels_drops_slide` at a concrete input. -/
theorem c2_witness : processSlide zipNoRels "ppt/slides/slide1.xml" none = none :=
  c2_missing_rels_drops_slide zipNoRels "ppt/slides/slide1.xml" none rfl

/-- C6, counterexample: a slide part whose digits cannot be parsed
(`slideABC`) is NOT excluded from the processing list — `getSlidePaths`
keeps it and the sort gives it key 0, placing it first; numeric parts are
ordered 2 before 10 (not lexically). -/
theorem c6_counterexample_unparsable_retained :
    sortedSlidePaths zipMixed =
      ["ppt/slides/slideABC.xml", "ppt/slides/slide2.xml", "ppt/slides/slide10.xml"] ∧
    "ppt/slides/slideABC.xml" ∈ sortedSlidePaths zipMixed ∧
    findSlideDigits "ppt/slides/slideABC.xml".data = none :=
  ⟨rfl, by decide, rfl⟩

/-- C6, amended: slide parts are processed in ascending order of parsed
ordinal (an unparsable part gets sort key 0 and is kept in the list), and
an unparsable part never yields an output slide: its path is not a key of
the slide-to-rels map, so `processSlide` hits the missing-rels branch and
returns null with a warning. -/
theorem c6_sorted_and_unparsable_dropped (zip : Package) (p : String)
    (h : findSlideDigits p.data = none) :
    (sortedSlidePaths zip).Pairwise (fun a b => parseSlideNum a ≤ parseSlideNum b) ∧
    processSlide zip p (jsObjGet (getSlideToRelsMap zip) p) = none := by
  refine ⟨pairwise_sortByNum _, ?_⟩
  rw [relsLookup_none_of_unparsable h]
  exact processSlide_relsNone zip p none rfl

/-- C6, witness for `c6_sorted_and_unparsable_dropped` at a concrete
input. -/
theorem c6_witness :
    (sortedSlidePaths zipMixed).Pairwise (fun a b => parseSlideNum a ≤ parseSlideNum b) ∧
    processSlide zipMixed "ppt/slides/slideABC.xml"
      (jsObjGet (getSlideToRelsMap zipMixed) "ppt/slides/slideABC.xml") = none :=
  c6_sorted_and_unparsable_dropped zipMixed "ppt/slides/slideABC.xml" rfl

/-- C7: a slide part whose body is malformed XML is skipped — the batch
result equals the per-path processing of all other paths, with the
malformed one contributing nothing; no exception escapes `processSlide`
and no other slide is affected. -/
theorem c7_malformed_slide_skipped (zip : Package) (p : String)
    (hp : strStartsWith p "ppt/slides/slide" = true)
    (hmal : zipFile zip p = some Content.malformed) :
    parseSlides zip =
      (sortedSlidePaths zip).filterMap fun q =>
        if q = p then none
        else processSlide zip q (jsObjGet (getSlideToRelsMap zip) q) := by
  unfold parseSlides
  apply List.filterMap_congr
  intro q hq
  by_cases hqp : q = p
  · subst hqp
    rw [if_pos rfl, processSlide_eq, hmal]
    cases (jsObjGet (getSlideToRelsMap zip) q).bind (zipFile zip) <;> rfl
  · rw [if_neg hqp]

/-- C7, witness for `c7_malformed_slide_skipped` at a concrete input. -/
theorem c7_witness :
    parseSlides zipOneBad =
      (sortedSlidePaths zipOneBad).filterMap fun q =>
        if q = "ppt/slides/slide1.xml" then none
        else processSlide zipOneBad q (jsObjGet (getSlideToRelsMap zipOneBad) q) :=
  c7_malformed_slide_skipped zipOneBad "ppt/slides/slide1.xml" rfl rfl

theorem string_ppt_append_ne_empty (t : String) : ("ppt/" ++ t) ≠ "" := by
  intro hc
  have h1 : ("ppt/" ++ t).data = "".data := congrArg String.data hc
  rw [String.data_append, (rfl : "ppt/".data = 'p' :: 'p' :: 't' :: '/' :: []),
    (rfl : "".data = ([] : List Char))] at h1
  simp at h1

theorem extractRuns_mem {title : String} {rs : List RunElem} {t : TextItem}
    (h : t ∈ extractRuns title rs) : t.text ≠ some title := by
  induction rs with
  | nil => simp [extractRuns] at h
  | cons r rt ih =>
    rw [extractRuns] at h
    split at h
    next hcond =>
      rcases List.mem_cons.mp h with h1 | h2
      · subst h1; exact hcond
      · exact ih h2
    next hcond => exact ih h

theorem paragraphItemsOfShape_mem {title : String} {sh : Shape} {p : ParagraphItem}
    (h : p ∈ paragraphItemsOfShape title sh) :
    p.text ≠ [] ∧ ∀ t ∈ p.text, t.text ≠ some title := by
  unfold paragraphItemsOfShape at h
  cases htb : sh.txBody with
  | none => rw [htb] at h; simp at h
  | some tb =>
    rw [htb] at h
    dsimp only at h
    cases hps : tb.ps with
    | none => rw [hps] at h; simp at h
    | some paras =>
      rw [hps] at h
      rw [List.mem_filterMap] at h
      obtain ⟨para, hpm, hf⟩ := h
      split at hf
      · cases hf
      next hne =>
        cases hf
        refine ⟨?_, fun t ht => extractRuns_mem ht⟩
        intro hc
        exact hne (by rw [List.isEmpty_iff]; exact hc)

/-- C8, counterexample: an image relationship targeting a `.gif` IS kept
in the Slide's image list by `extractImagePaths` — the extension check
only happens later, in `createImageFrames`, which skips the gif without
error. -/
theorem c8_counterexample_gif_in_images :
    (parseSlides zipGif).map SlideData.images = [["ppt/media/image1.gif"]] ∧
    createdImagePaths zipGif ["ppt/media/image1.gif"] = [] :=
  ⟨rfl, rfl⟩

/-- C8, amended: `extractImagePaths` keeps every image-typed relationship
target regardless of extension (so `.gif` paths do appear in
`SlideData.images`); the png/jpeg/jpg restriction is enforced only at
render time, where `createImageFrames` creates nodes exactly for existing
entries with those extensions and skips the rest without error. -/
theorem c8_extension_checked_at_render_only :
    (∀ (doc : XmlDoc) (rel : Relationship), rel ∈ doc.relationships.getD [] →
        rel.relType = imageRelTypeURI →
        ("ppt/" ++ String.mk (replaceFirst ("../".data) rel.target.data))
          ∈ extractImagePaths doc) ∧
    (∀ (zip : Package) (images : List String) (p : String),
        p ∈ createdImagePaths zip images → jsExtension p ∈ ["png", "jpeg", "jpg"]) := by
  constructor
  · intro doc rel hmem hty
    unfold extractImagePaths
    rw [List.mem_filterMap]
    refine ⟨rel, hmem, ?_⟩
    rw [if_pos hty, if_pos (string_ppt_append_ne_empty _)]
  · intro zip images p hp
    unfold createdImagePaths at hp
    rw [List.mem_filter, Bool.and_eq_true] at hp
    simpa using hp.2.2

/-- C8, witness for `c8_extension_checked_at_render_only` at concrete
inputs. -/
theorem c8_witness :
    ("ppt/" ++ String.mk (replaceFirst ("../".data) ("../media/image1.gif" : String).data))
        ∈ extractImagePaths relsGifDoc ∧
    jsExtension "ppt/media/image9.png" ∈ ["png", "jpeg", "jpg"] :=
  ⟨c8_extension_checked_at_render_only.1 relsGifDoc
      { relType := imageRelTypeURI, target := "../media/image1.gif" } (by decide) rfl,
    c8_extension_checked_at_render_only.2 zipPng ["ppt/media/image9.png"]
      "ppt/media/image9.png" (by decide)⟩

/-- C9, counterexample: the extractor performs no trimming and no
empty-run dropping — on `docTitleAndBlank` it emits a paragraph whose
runs are a whitespace-only run and an empty run (runs are only dropped
when their text strictly equals the title). -/
theorem c9_counterexample_blank_paragraph :
    extractTextData docTitleAndBlank = .ok ("T", [paraBlankOut]) ∧
    { text := some "", isBold := false } ∈ paraBlankOut.text :=
  ⟨rfl, by decide⟩

/-- C9, amended: what the extractor actually guarantees is weaker: every
emitted paragraph has a nonempty run list (paragraphs whose collected run
array is empty are skipped), and no emitted run's text equals the title
string; no trim-based or emptiness-based filtering of run text exists, so
whitespace-only or empty run texts can appear. -/
theorem c9_paragraphs_nonempty_runs_not_title (doc : XmlDoc) (title : String)
    (ps : List ParagraphItem) (h : extractTextData doc = .ok (title, ps)) :
    ∀ p ∈ ps, p.text ≠ [] ∧ ∀ t ∈ p.text, t.text ≠ some title := by
  simp only [extractTextData] at h
  cases hf : jsFind isTitleShape (doc.shapes.getD []) with
  | error e => rw [hf] at h; cases h
  | ok found =>
    rw [hf, except_bind_ok] at h
    cases h
    intro p hp
    rw [List.mem_flatten] at hp
    obtain ⟨l, hl, hpl⟩ := hp
    rw [List.mem_map] at hl
    obtain ⟨sh, hsh, hleq⟩ := hl
    subst hleq
    exact paragraphItemsOfShape_mem hpl

/-- C9, witness for `c9_paragraphs_nonempty_runs_not_title` at a concrete
input. -/
theorem c9_witness : paraBlankOut.text ≠ [] :=
  (c9_paragraphs_nonempty_runs_not_title docTitleAndBlank "T" [paraBlankOut] rfl
    paraBlankOut (by decide)).1

/-- C10: a well-formed slide whose shape carries placeholder attributes
without a `type` attribute makes the title-detection expression throw
(`.includes` on an undefined `type`); `processSlide` catches it and
returns null, so the structurally valid slide is silently dropped. -/
theorem c10_ph_without_type_drops_slide :
    extractTextData docPhNoType = .error .typeError ∧
    getSlidePaths zipPhNoType = ["ppt/slides/slide1.xml"] ∧
    parseSlides zipPhNoType = [] :=
  ⟨rfl, rfl, rfl⟩

end PptxSpec
